import Mathlib

/-!
Shallow embedding of the coverage-checker GitHub action (src/index.js).
JavaScript numbers are modelled by an inductive with finite rationals plus
NaN and the two infinities; integer report attributes are naturals; the
3-decimal `toFixed` rounding is modelled exactly on rationals.
-/

namespace CoverageChecker

/-- A JavaScript number as it occurs in this program: a finite value
(modelled as a rational), NaN, Infinity or -Infinity. -/
inductive JSNum where
  | finite : ℚ → JSNum
  | nan : JSNum
  | inf : JSNum
  | ninf : JSNum
deriving DecidableEq, Repr

/-- JavaScript `<` on numbers: every comparison involving NaN is false. -/
def jsLt : JSNum → JSNum → Bool
  | .finite a, .finite b => decide (a < b)
  | .finite _, .inf => true
  | .ninf, .finite _ => true
  | .ninf, .inf => true
  | _, _ => false

/-- JavaScript subtraction on numbers. -/
def jsSub : JSNum → JSNum → JSNum
  | .finite a, .finite b => .finite (a - b)
  | .nan, _ => .nan
  | _, .nan => .nan
  | .inf, .inf => .nan
  | .ninf, .ninf => .nan
  | .inf, _ => .inf
  | .ninf, _ => .ninf
  | .finite _, .inf => .ninf
  | .finite _, .ninf => .inf

/-- Round to the nearest integer, ties toward the larger value, as the
`toFixed` specification prescribes. -/
def ratRound (q : ℚ) : ℤ := (q + 1 / 2).floor

/-- Composition of `toFixed` with `parseFloat` on a finite value: round to
3 decimal places, yielding exactly (number of thousandths) / 1000. -/
def jsRound3 (q : ℚ) : ℚ := Rat.divInt (ratRound (1000 * q)) 1000

/-- The expression `100 * covered / total` in JavaScript followed by the
3-decimal rounding: division by a zero total produces NaN (0/0) or
Infinity, not an error. -/
def computeCoverage (covered total : ℕ) : JSNum :=
  if total = 0 then (if covered = 0 then .nan else .inf)
  else .finite (jsRound3 (100 * (covered : ℚ) / (total : ℚ)))

/-- The `{ total, covered, coverage }` object produced by `parseCoverage`. -/
structure Snapshot where
  total : ℕ
  covered : ℕ
  coverage : JSNum
deriving DecidableEq, Repr

/-- An xml-js element node. Only the two integer attributes read by the
program (`elements`, `coveredelements`) are modelled, on every node. -/
inductive XmlNode where
  | node (name : String) (attrElements : ℕ) (attrCoveredElements : ℕ)
      (elements : List XmlNode)
deriving Repr

def XmlNode.name : XmlNode → String
  | .node n _ _ _ => n

def XmlNode.attrElements : XmlNode → ℕ
  | .node _ e _ _ => e

def XmlNode.attrCoveredElements : XmlNode → ℕ
  | .node _ _ c _ => c

def XmlNode.elements : XmlNode → List XmlNode
  | .node _ _ _ es => es

/-- Function `findNode`: first child with the given name; the source fails
with the wrong-file-format message when absent, modelled as `none`. -/
def findNode (tree : XmlNode) (nm : String) : Option XmlNode :=
  tree.elements.find? (fun e => e.name = nm)

/-- The chain of `findNode` calls for coverage, then project, then metrics. -/
def retrieveGlobalMetricsElement (json : XmlNode) : Option XmlNode :=
  ((findNode json "coverage").bind (fun n => findNode n "project")).bind
    (fun n => findNode n "metrics")

inductive ParseError where
  | reportNotFound
  | malformed
deriving DecidableEq, Repr

/-- Function `parseCoverage`: the glob result is the list of matched files (already
parsed as xml-js trees). Zero matches fail; otherwise only `files[0]` is
read, its metrics attributes are taken, and the percentage is computed. -/
def parseCoverage (files : List XmlNode) : Except ParseError Snapshot :=
  match files with
  | [] => .error .reportNotFound
  | f :: _ =>
    match retrieveGlobalMetricsElement f with
    | none => .error .malformed
    | some metrics =>
      .ok { total := metrics.attrElements
            covered := metrics.attrCoveredElements
            coverage := computeCoverage metrics.attrCoveredElements metrics.attrElements }

/-- The threshold table of `processBadgeColor`. -/
def badgeColors : List (ℚ × String) :=
  [(50, "red"), (75, "orange"), (95, "yellow")]

/-- Function `processBadgeColor`: first threshold (in table order) strictly above the
coverage wins; `green` when none matches. -/
def processBadgeColor (coverage : JSNum) : String :=
  match badgeColors.find? (fun tc => jsLt coverage (.finite tc.1)) with
  | some tc => tc.2
  | none => "green"

/-- Three-digit zero-padded decimal part. -/
def pad3 (k : ℕ) : String :=
  (if k < 10 then "00" else if k < 100 then "0" else "") ++ toString k

/-- Fixed 3-decimal rendering of a natural number of thousandths. -/
def natFixed3 (m : ℕ) : String :=
  toString (m / 1000) ++ "." ++ pad3 (m % 1000)

/-- JavaScript `x.toFixed(3)`: sign taken from the value, then the
magnitude rounded to thousandths; NaN and the infinities print their names. -/
def jsToFixed3 : JSNum → String
  | .nan => "NaN"
  | .inf => "Infinity"
  | .ninf => "-Infinity"
  | .finite q =>
    if q < 0 then "-" ++ natFixed3 (ratRound (1000 * (-q))).toNat
    else natFixed3 (ratRound (1000 * q)).toNat

/-- JavaScript number-to-string for the finite 3-decimal values this program
displays: integer part, then the fractional thousandths with trailing zeros
stripped; no decimal point for whole numbers. -/
def ratDisplay (q : ℚ) : String :=
  let n : ℤ := ratRound (1000 * q)
  let sign := if n < 0 then "-" else ""
  let m := n.natAbs
  let ip := m / 1000
  let fp := m % 1000
  if fp = 0 then sign ++ toString ip
  else if fp % 100 = 0 then sign ++ toString ip ++ "." ++ toString (fp / 100)
  else if fp % 10 = 0 then
    sign ++ toString ip ++ "." ++ (if fp / 10 < 10 then "0" else "") ++ toString (fp / 10)
  else sign ++ toString ip ++ "." ++ pad3 fp

def jsNumToString : JSNum → String
  | .nan => "NaN"
  | .inf => "Infinity"
  | .ninf => "-Infinity"
  | .finite q => ratDisplay q

/-- The lines that `buildDeltaMessage` joins with the newline separator;
`ref` stands for the `GITHUB_REF` environment variable. -/
def buildDeltaLines (ref : String) (old new : Snapshot) : List String :=
  [ "",
    "| Measure | Main branch | " ++ ref ++ " |",
    "| --- | --- | --- |",
    "| Coverage | " ++ jsNumToString old.coverage ++ "% | " ++ jsNumToString new.coverage ++ "% |",
    "| Total lines | " ++ toString old.total ++ " | " ++ toString new.total ++ " |",
    "| Covered lines | " ++ toString old.covered ++ " | " ++ toString new.covered ++ " |",
    "",
    "∆ " ++ jsToFixed3 (jsSub new.coverage old.coverage),
    "" ]

def buildDeltaMessage (ref : String) (old new : Snapshot) : String :=
  String.intercalate "\n" (buildDeltaLines ref old new)

def buildFailureMessage (ref : String) (old new : Snapshot) : String :=
  ":x: Your code coverage has been degraded :sob:" ++ buildDeltaMessage ref old new

def buildSuccessMessage (ref : String) (old new : Snapshot) : String :=
  ":white_check_mark: Your code coverage has not been degraded :tada:" ++ buildDeltaMessage ref old new

/-- Function `buildResultMessage` together with its `core.setFailed` side
effect: the returned Bool is true exactly when the run is marked failed. -/
def buildResultMessage (ref : String) (old new : Snapshot) : String × Bool :=
  if jsLt new.coverage old.coverage then (buildFailureMessage ref old new, true)
  else (buildSuccessMessage ref old new, false)

/-- Character-list comparison used by the substring test. -/
def charsStartWith : List Char → List Char → Bool
  | _, [] => true
  | [], _ :: _ => false
  | c :: cs, p :: ps => c = p && charsStartWith cs ps

/-- Does `pat` occur contiguously inside `s`? -/
def charsContain : List Char → List Char → Bool
  | [], pat => pat.isEmpty
  | s@(_ :: cs), pat => charsStartWith s pat || charsContain cs pat

/-- Substring test on strings, used to state that a message contains a
given fragment. -/
def containsSub (pat s : String) : Bool := charsContain s.data pat.data

/-- Function `sumCoverages`: start from zero totals, add up `total` and `covered`
over all map values in order, then recompute the percentage from the sums. -/
def sumCoverages (coverages : List (String × Snapshot)) : Snapshot :=
  let out := coverages.foldl (fun acc p => (acc.1 + p.2.total, acc.2 + p.2.covered)) (0, 0)
  { total := out.1, covered := out.2, coverage := computeCoverage out.2 out.1 }

/-- One entry of the `files` configuration input: report glob, summary file
name (storage label), display label, optional badge file name. -/
structure ConfigEntry where
  coverage : String
  summary : String
  label : String
  badge : Option String
deriving DecidableEq, Repr

/-- The lookup `COVERAGE_FILES.find(e => e.summary === summaryFile)`. -/
def confFor (config : List ConfigEntry) (summaryFile : String) : Option ConfigEntry :=
  config.find? (fun e => e.summary = summaryFile)

/-- The display label of the configuration entry for a summary file. -/
def labelFor (config : List ConfigEntry) (summaryFile : String) : String :=
  ((confFor config summaryFile).map (fun c => c.label)).getD ""

/-- One `{time, coverage}` entry of the history ledger. -/
structure HistoryEntry where
  time : String
  coverage : JSNum
deriving DecidableEq, Repr

/-- The history object: a JavaScript object mapping labels to entry arrays,
modelled as an insertion-ordered association list. -/
abbrev Ledger := List (String × List HistoryEntry)

/-- Reading `history[label]`: `none` when the key is undefined. -/
def ledgerGet : Ledger → String → Option (List HistoryEntry)
  | [], _ => none
  | (k, v) :: rest, label => if k = label then some v else ledgerGet rest label

/-- Writing `history[label] = entries`: replace in place, or add the key at
the end. -/
def ledgerSet : Ledger → String → List HistoryEntry → Ledger
  | [], label, entries => [(label, entries)]
  | (k, v) :: rest, label, entries =>
    if k = label then (label, entries) :: rest else (k, v) :: ledgerSet rest label entries

/-- The two history statements of the update loop: create the sequence when
the key is undefined, then `push` one entry at its end. -/
def appendEntry (history : Ledger) (label : String) (e : HistoryEntry) : Ledger :=
  ledgerSet history label ((ledgerGet history label).getD [] ++ [e])

/-- Function `getBadgeUrl` (URI-escaping of the label is not modelled). -/
def getBadgeUrl (coverage : JSNum) (label : String) : String :=
  "https://img.shields.io/static/v1?label=" ++ label ++ "&message=" ++
    jsNumToString coverage ++ "%25&color=" ++ processBadgeColor coverage ++
    "&style=for-the-badge"

/-- Observable store writes of an update run, in program order. -/
inductive RunEvent where
  | writeSummary (file : String) (content : Snapshot)
  | writeBadge (file : String) (content : String)
  | persistHistory (ledger : Ledger)
deriving DecidableEq, Repr

def isPersistEvent : RunEvent → Bool
  | .persistHistory _ => true
  | _ => false

/-- The badge write of one update iteration, when a badge file is configured. -/
def badgeEvents (conf : ConfigEntry) (snap : Snapshot) : List RunEvent :=
  match conf.badge with
  | none => []
  | some b => [.writeBadge b (getBadgeUrl snap.coverage conf.label)]

/-- The `for (const summaryFile of Object.keys(coverages))` loop of `update`:
writes the summary file, optionally the badge, and appends one history entry
per iteration. `none` models the TypeError thrown when no configuration
entry matches a summary file. -/
def runLoop (config : List ConfigEntry) (now : String) :
    List (String × Snapshot) → Ledger → List RunEvent → Option (List RunEvent × Ledger)
  | [], history, evs => some (evs, history)
  | (summaryFile, cov) :: rest, history, evs =>
    match confFor config summaryFile with
    | none => none
    | some conf =>
      runLoop config now rest
        (appendEntry history conf.label ⟨now, cov.coverage⟩)
        (evs ++ .writeSummary summaryFile cov :: badgeEvents conf cov)

/-- The update run after the history has been loaded: the loop, then the
single `writeFileSync` of the whole history file after the loop. -/
def updateRun (config : List ConfigEntry) (coverages : List (String × Snapshot))
    (now : String) (history : Ledger) : Option (List RunEvent × Ledger) :=
  (runLoop config now coverages history []).map
    (fun r => (r.1 ++ [.persistHistory r.2], r.2))

/-- An HTTP response for the history file: status and (when 200) parsed body. -/
structure FetchResponse where
  status : ℕ
  body : Ledger
deriving DecidableEq, Repr

/-- The conditional `historyFile.status === 200 ? json : empty object`. -/
def loadHistory (resp : FetchResponse) : Ledger :=
  if resp.status = 200 then resp.body else []

/-- Function `update`: load the history from the fetch response, then run
the loop and persist. -/
def update (config : List ConfigEntry) (coverages : List (String × Snapshot))
    (now : String) (resp : FetchResponse) : Option (List RunEvent × Ledger) :=
  updateRun config coverages now (loadHistory resp)

/-- Outcome of `fetchBaseCoverage` for one summary file: a 200 response with
a parsed snapshot, a 404, or any other failing status (whose body then fails
to parse as JSON, aborting the run). -/
inductive BaseFetch where
  | ok (snapshot : Snapshot)
  | notFound
  | failed
deriving DecidableEq, Repr

def isOk : BaseFetch → Bool
  | .ok _ => true
  | _ => false

/-- The snapshot of a 200 response (defaulted elsewhere). -/
def okSnap : BaseFetch → Snapshot
  | .ok b => b
  | _ => ⟨0, 0, .nan⟩

/-- What `check` accumulates: the fetched base coverages, the message list,
and whether any comparison called `core.setFailed`. -/
structure CheckResult where
  baseCoverages : List (String × Snapshot)
  messages : List String
  failed : Bool
deriving DecidableEq, Repr

/-- The per-summary loop of `check`: skip on 404, abort on any other failing
fetch, otherwise record the base coverage and push one comparison message. -/
def checkLoop (ref : String) (config : List ConfigEntry) (base : String → BaseFetch) :
    List (String × Snapshot) → List (String × Snapshot) → List String → Bool →
    Option (List (String × Snapshot) × List String × Bool)
  | [], bases, msgs, failed => some (bases, msgs, failed)
  | (summaryFile, cov) :: rest, bases, msgs, failed =>
    match base summaryFile with
    | .notFound => checkLoop ref config base rest bases msgs failed
    | .failed => none
    | .ok b =>
      match confFor config summaryFile with
      | none => none
      | some conf =>
        checkLoop ref config base rest
          (bases ++ [(summaryFile, b)])
          (msgs ++ ["*" ++ conf.label ++ "* \n\n" ++ (buildResultMessage ref b cov).1])
          (failed || (buildResultMessage ref b cov).2)

/-- Function `check`: the loop over all summaries, then the extra global
comparison when more than one report is configured. -/
def check (ref : String) (config : List ConfigEntry) (coverages : List (String × Snapshot))
    (base : String → BaseFetch) : Option CheckResult :=
  (checkLoop ref config base coverages [] [] false).map
    (fun r =>
      if coverages.length > 1 then
        { baseCoverages := r.1,
          messages := r.2.1 ++
            ["*Global* \n\n" ++ (buildResultMessage ref (sumCoverages r.1) (sumCoverages coverages)).1],
          failed := r.2.2 || (buildResultMessage ref (sumCoverages r.1) (sumCoverages coverages)).2 }
      else { baseCoverages := r.1, messages := r.2.1, failed := r.2.2 })

/-- The join of all messages with the divider line. -/
def postedMessage (r : CheckResult) : String :=
  String.intercalate "\n---\n" r.messages

/-- The base-coverage map accumulated by the check loop: the entries whose
baseline fetch succeeded, paired with the fetched snapshot. -/
def okBases (base : String → BaseFetch) (l : List (String × Snapshot)) :
    List (String × Snapshot) :=
  (l.filter (fun p => isOk (base p.1))).map (fun p => (p.1, okSnap (base p.1)))

/-- The per-report message pushed by the check loop for one summary file. -/
def perMsg (ref : String) (config : List ConfigEntry) (base : String → BaseFetch)
    (p : String × Snapshot) : String :=
  "*" ++ labelFor config p.1 ++ "* \n\n" ++ (buildResultMessage ref (okSnap (base p.1)) p.2).1

/-! ## Theorems -/

/-- C1: for every pair of snapshots with finite coverage percentages, the
comparison verdict is fail exactly when the new coverage is strictly below
the old one; equal coverage yields a pass. -/
theorem buildResultMessage_fail_iff (ref : String) (old new : Snapshot) (qo qn : ℚ)
    (ho : old.coverage = .finite qo) (hn : new.coverage = .finite qn) :
    ((buildResultMessage ref old new).2 = true ↔ qn < qo) ∧
    (qn = qo → (buildResultMessage ref old new).2 = false) := by
  have hmain : (buildResultMessage ref old new).2 = decide (qn < qo) := by
    rw [buildResultMessage, ho, hn]
    show (if jsLt (JSNum.finite qn) (JSNum.finite qo) then (_, true) else (_, false)).2 = _
    rw [jsLt]
    by_cases h : qn < qo <;> simp [h]
  refine ⟨by rw [hmain]; simp, fun h => by rw [hmain]; subst h; simp⟩

/-- C1 witness: old coverage 80, new coverage 79. -/
theorem buildResultMessage_fail_iff_witness :
    (⟨100, 80, .finite 80⟩ : Snapshot).coverage = .finite 80 ∧
    (⟨100, 79, .finite 79⟩ : Snapshot).coverage = .finite 79 ∧
    (((buildResultMessage "main" ⟨100, 80, .finite 80⟩ ⟨100, 79, .finite 79⟩).2 = true ↔
        (79 : ℚ) < 80) ∧
      ((79 : ℚ) = 80 →
        (buildResultMessage "main" ⟨100, 80, .finite 80⟩ ⟨100, 79, .finite 79⟩).2 = false)) :=
  ⟨rfl, rfl, buildResultMessage_fail_iff "main" ⟨100, 80, .finite 80⟩ ⟨100, 79, .finite 79⟩ 80 79 rfl rfl⟩

/-- C2: a clover report whose metrics node carries `elements="0"` is parsed
without any error; the snapshot is returned with a NaN coverage (covered 0)
or an Infinity coverage (covered positive), contradicting the requirement
that a zero total raises `MalformedReportError`. -/
theorem parseCoverage_zero_total_returns_snapshot :
    parseCoverage [.node "" 0 0 [.node "coverage" 0 0 [.node "project" 0 0
        [.node "metrics" 0 0 []]]]] = .ok ⟨0, 0, .nan⟩ ∧
    parseCoverage [.node "" 0 0 [.node "coverage" 0 0 [.node "project" 0 0
        [.node "metrics" 0 5 []]]]] = .ok ⟨0, 5, .inf⟩ :=
  ⟨rfl, rfl⟩

/-- C8: the badge color is decided by the first matching threshold of the
ascending table (red below 50, orange below 75, yellow below 95, otherwise
green), and the four boundary samples map as the specification says. -/
theorem processBadgeColor_thresholds :
    (∀ q : ℚ, processBadgeColor (.finite q) =
      if q < 50 then "red" else if q < 75 then "orange"
      else if q < 95 then "yellow" else "green") ∧
    processBadgeColor (.finite (mkRat 49999 1000)) = "red" ∧
    processBadgeColor (.finite 50) = "orange" ∧
    processBadgeColor (.finite (mkRat 94999 1000)) = "yellow" ∧
    processBadgeColor (.finite 95) = "green" := by
  refine ⟨fun q => ?_, by with_unfolding_all decide, by with_unfolding_all decide,
    by with_unfolding_all decide, by with_unfolding_all decide⟩
  by_cases h1 : q < 50 <;> by_cases h2 : q < 75 <;> by_cases h3 : q < 95 <;>
    simp [processBadgeColor, badgeColors, List.find?, jsLt, h1, h2, h3]

/-- C9: with a glob matching several files, `parseCoverage` returns exactly
what it returns on the first match alone — the other matched files are
ignored, nothing is aggregated, and the multiplicity never produces the
file-not-found failure. -/
theorem parseCoverage_uses_first_match (f : XmlNode) (rest : List XmlNode) :
    parseCoverage (f :: rest) = parseCoverage [f] ∧
    parseCoverage (f :: rest) ≠ .error .reportNotFound := by
  refine ⟨rfl, ?_⟩
  rw [parseCoverage]
  cases retrieveGlobalMetricsElement f <;> simp

/-- The accumulating pair of the `sumCoverages` loop is the pair of sums. -/
theorem sumCoverages_foldl (l : List (String × Snapshot)) : ∀ (a b : ℕ),
    l.foldl (fun acc p => (acc.1 + p.2.total, acc.2 + p.2.covered)) (a, b) =
      (a + (l.map (fun p => p.2.total)).sum, b + (l.map (fun p => p.2.covered)).sum) := by
  induction l with
  | nil => intro a b; simp
  | cons p rest ih =>
    intro a b
    rw [List.foldl_cons, ih]
    simp [List.map_cons, List.sum_cons, Nat.add_assoc]

/-- C3: on a non-empty map (with a positive summed total), `sumCoverages`
returns the elementwise sums of `total` and `covered` and recomputes the
percentage from those sums by the 3-decimal rounding — not from any average
of the per-entry percentages. -/
theorem sumCoverages_sums (m : List (String × Snapshot)) (hne : m ≠ [])
    (hpos : 0 < (m.map (fun p => p.2.total)).sum) :
    sumCoverages m =
      { total := (m.map (fun p => p.2.total)).sum,
        covered := (m.map (fun p => p.2.covered)).sum,
        coverage := .finite (jsRound3 (100 *
          ((((m.map (fun p => p.2.covered)).sum : ℕ)) : ℚ) /
          ((((m.map (fun p => p.2.total)).sum : ℕ)) : ℚ))) } := by
  unfold sumCoverages
  rw [sumCoverages_foldl]
  simp only [Nat.zero_add]
  rw [computeCoverage, if_neg (Nat.pos_iff_ne_zero.mp hpos)]

/-- C3 witness: a 3-entry map (1/1, 1/3, 1/2) whose summed computation gives
50.000 while the average of the per-entry percentages would be 61.111. -/
theorem sumCoverages_sums_witness :
    ([("a", ⟨1, 1, .finite 100⟩), ("b", ⟨3, 1, .finite (mkRat 33333 1000)⟩),
        ("c", ⟨2, 1, .finite 50⟩)] : List (String × Snapshot)) ≠ [] ∧
    0 < (([("a", ⟨1, 1, .finite 100⟩), ("b", ⟨3, 1, .finite (mkRat 33333 1000)⟩),
        ("c", ⟨2, 1, .finite 50⟩)] : List (String × Snapshot)).map (fun p => p.2.total)).sum ∧
    sumCoverages [("a", ⟨1, 1, .finite 100⟩), ("b", ⟨3, 1, .finite (mkRat 33333 1000)⟩),
        ("c", ⟨2, 1, .finite 50⟩)] =
      { total := (([("a", ⟨1, 1, .finite 100⟩), ("b", ⟨3, 1, .finite (mkRat 33333 1000)⟩),
          ("c", ⟨2, 1, .finite 50⟩)] : List (String × Snapshot)).map (fun p => p.2.total)).sum,
        covered := (([("a", ⟨1, 1, .finite 100⟩), ("b", ⟨3, 1, .finite (mkRat 33333 1000)⟩),
          ("c", ⟨2, 1, .finite 50⟩)] : List (String × Snapshot)).map (fun p => p.2.covered)).sum,
        coverage := .finite (jsRound3 (100 *
          ((((([("a", ⟨1, 1, .finite 100⟩), ("b", ⟨3, 1, .finite (mkRat 33333 1000)⟩),
            ("c", ⟨2, 1, .finite 50⟩)] : List (String × Snapshot)).map
              (fun p => p.2.covered)).sum : ℕ)) : ℚ) /
          ((((([("a", ⟨1, 1, .finite 100⟩), ("b", ⟨3, 1, .finite (mkRat 33333 1000)⟩),
            ("c", ⟨2, 1, .finite 50⟩)] : List (String × Snapshot)).map
              (fun p => p.2.total)).sum : ℕ)) : ℚ))) } :=
  ⟨by decide, by decide,
    sumCoverages_sums [("a", ⟨1, 1, .finite 100⟩), ("b", ⟨3, 1, .finite (mkRat 33333 1000)⟩),
      ("c", ⟨2, 1, .finite 50⟩)] (by decide) (by decide)⟩

/-- C5 counterexample: with old coverage 79 and new coverage 80, the delta
is +1 yet the message renders it as `∆ 1.000` — there is no plus sign
anywhere in the message. -/
theorem buildDeltaMessage_positive_delta_unsigned :
    containsSub "∆ 1.000" (buildDeltaMessage "refs/heads/feature"
      ⟨100, 79, .finite 79⟩ ⟨100, 80, .finite 80⟩) = true ∧
    containsSub "∆ +1.000" (buildDeltaMessage "refs/heads/feature"
      ⟨100, 79, .finite 79⟩ ⟨100, 80, .finite 80⟩) = false ∧
    containsSub "+" (buildDeltaMessage "refs/heads/feature"
      ⟨100, 79, .finite 79⟩ ⟨100, 80, .finite 80⟩) = false := by
  refine ⟨?_, ?_, ?_⟩ <;> with_unfolding_all decide

/-- C5 amended: the message contains the delta `new.coverage - old.coverage`
rounded to 3 decimals, but with a sign only when the delta is negative
(leading minus); a non-negative delta is rendered bare, with no plus sign. -/
theorem buildDeltaMessage_delta_rendering (ref : String) (old new : Snapshot) (qo qn : ℚ)
    (ho : old.coverage = .finite qo) (hn : new.coverage = .finite qn) :
    ("∆ " ++ jsToFixed3 (.finite (qn - qo))) ∈ buildDeltaLines ref old new ∧
    buildDeltaMessage ref old new = String.intercalate "\n" (buildDeltaLines ref old new) ∧
    (qn - qo < 0 →
      jsToFixed3 (.finite (qn - qo)) = "-" ++ natFixed3 (ratRound (1000 * (qo - qn))).toNat) ∧
    (0 ≤ qn - qo →
      jsToFixed3 (.finite (qn - qo)) = natFixed3 (ratRound (1000 * (qn - qo))).toNat) := by
  refine ⟨?_, rfl, fun h => ?_, fun h => ?_⟩
  · simp [buildDeltaLines, ho, hn, jsSub]
  · simp only [jsToFixed3, if_pos h, neg_sub]
  · simp only [jsToFixed3, if_neg (not_lt.mpr h)]

/-- C5 amended witness: old coverage 80, new coverage 79 (negative delta). -/
theorem buildDeltaMessage_delta_rendering_witness :
    (⟨100, 80, .finite 80⟩ : Snapshot).coverage = .finite 80 ∧
    (⟨100, 79, .finite 79⟩ : Snapshot).coverage = .finite 79 ∧
    (("∆ " ++ jsToFixed3 (.finite ((79 : ℚ) - 80))) ∈
        buildDeltaLines "refs/heads/feature" ⟨100, 80, .finite 80⟩ ⟨100, 79, .finite 79⟩ ∧
      buildDeltaMessage "refs/heads/feature" ⟨100, 80, .finite 80⟩ ⟨100, 79, .finite 79⟩ =
        String.intercalate "\n"
          (buildDeltaLines "refs/heads/feature" ⟨100, 80, .finite 80⟩ ⟨100, 79, .finite 79⟩) ∧
      ((79 : ℚ) - 80 < 0 →
        jsToFixed3 (.finite ((79 : ℚ) - 80)) =
          "-" ++ natFixed3 (ratRound (1000 * ((80 : ℚ) - 79))).toNat) ∧
      (0 ≤ (79 : ℚ) - 80 →
        jsToFixed3 (.finite ((79 : ℚ) - 80)) =
          natFixed3 (ratRound (1000 * ((79 : ℚ) - 80))).toNat)) :=
  ⟨rfl, rfl, buildDeltaMessage_delta_rendering "refs/heads/feature"
    ⟨100, 80, .finite 80⟩ ⟨100, 79, .finite 79⟩ 80 79 rfl rfl⟩

/-- C4 counterexample: an authentication failure (HTTP 401) while fetching
the history is not fatal — the update run completes, silently starting from
an empty ledger even though the remote history held an entry for `X`. -/
theorem update_non404_failure_not_fatal :
    loadHistory ⟨401, [("X", [⟨"2024-01-01T00:00:00Z", .finite 80⟩])]⟩ = [] ∧
    update [⟨"clover.xml", "cov.json", "lib", none⟩] [("cov.json", ⟨100, 80, .finite 80⟩)]
        "2024-02-02T00:00:00Z" ⟨401, [("X", [⟨"2024-01-01T00:00:00Z", .finite 80⟩])]⟩ =
      some ([.writeSummary "cov.json" ⟨100, 80, .finite 80⟩,
             .persistHistory [("lib", [⟨"2024-02-02T00:00:00Z", .finite 80⟩])]],
            [("lib", [⟨"2024-02-02T00:00:00Z", .finite 80⟩])]) :=
  ⟨rfl, rfl⟩

/-- C4 amended: only a 200 response yields the stored ledger; every other
status — not-found and authentication or network-level statuses alike — is
treated identically as an empty-ledger bootstrap, and the update run
proceeds the same way; no fetch status is fatal. -/
theorem loadHistory_non200_empty (config : List ConfigEntry)
    (coverages : List (String × Snapshot)) (now : String) (resp other : FetchResponse)
    (h : resp.status ≠ 200) (h2 : other.status ≠ 200) :
    loadHistory resp = [] ∧
    update config coverages now resp = update config coverages now other := by
  have e : loadHistory resp = [] := if_neg h
  have e2 : loadHistory other = [] := if_neg h2
  exact ⟨e, by rw [update, update, e, e2]⟩

/-- C4 amended witness: a 404 and a 500 response behave the same. -/
theorem loadHistory_non200_empty_witness :
    (⟨404, []⟩ : FetchResponse).status ≠ 200 ∧
    (⟨500, [("X", [⟨"t0", .finite 80⟩])]⟩ : FetchResponse).status ≠ 200 ∧
    (loadHistory ⟨404, []⟩ = [] ∧
      update [⟨"clover.xml", "cov.json", "lib", none⟩] [("cov.json", ⟨100, 80, .finite 80⟩)]
          "t1" ⟨404, []⟩ =
        update [⟨"clover.xml", "cov.json", "lib", none⟩] [("cov.json", ⟨100, 80, .finite 80⟩)]
          "t1" ⟨500, [("X", [⟨"t0", .finite 80⟩])]⟩) :=
  ⟨by decide, by decide,
    loadHistory_non200_empty [⟨"clover.xml", "cov.json", "lib", none⟩]
      [("cov.json", ⟨100, 80, .finite 80⟩)] "t1" ⟨404, []⟩
      ⟨500, [("X", [⟨"t0", .finite 80⟩])]⟩ (by decide) (by decide)⟩

/-- Reading back the key just written. -/
theorem ledgerGet_set_self (h : Ledger) (lab : String) (es : List HistoryEntry) :
    ledgerGet (ledgerSet h lab es) lab = some es := by
  induction h with
  | nil => simp [ledgerSet, ledgerGet]
  | cons kv rest ih =>
    obtain ⟨k, v⟩ := kv
    by_cases hk : k = lab
    · subst hk; simp [ledgerSet, ledgerGet]
    · simp [ledgerSet, ledgerGet, hk, ih]

/-- Writing one key leaves every other key unchanged. -/
theorem ledgerGet_set_other (h : Ledger) (lab lab2 : String) (es : List HistoryEntry)
    (hne : lab2 ≠ lab) :
    ledgerGet (ledgerSet h lab es) lab2 = ledgerGet h lab2 := by
  induction h with
  | nil => simp [ledgerSet, ledgerGet, Ne.symm hne]
  | cons kv rest ih =>
    obtain ⟨k, v⟩ := kv
    by_cases hk : k = lab
    · subst hk
      simp [ledgerSet, ledgerGet, Ne.symm hne]
    · by_cases hk2 : k = lab2 <;> simp [ledgerSet, ledgerGet, hk, hk2, hne, ih]

/-- The appended label now holds its previous sequence (empty when the key
was absent) with the new entry at the end. -/
theorem ledgerGet_append_self (h : Ledger) (lab : String) (e : HistoryEntry) :
    ledgerGet (appendEntry h lab e) lab = some ((ledgerGet h lab).getD [] ++ [e]) := by
  rw [appendEntry, ledgerGet_set_self]

/-- Appending to one label leaves every other label unchanged. -/
theorem ledgerGet_append_other (h : Ledger) (lab lab2 : String) (e : HistoryEntry)
    (hne : lab2 ≠ lab) :
    ledgerGet (appendEntry h lab e) lab2 = ledgerGet h lab2 := by
  rw [appendEntry, ledgerGet_set_other _ _ _ _ hne]

/-- Full characterisation of the update loop: it succeeds whenever every
summary file has a configuration entry, emits no history write, appends
exactly one entry at the end of each tracked label (with distinct labels),
and leaves every untracked label untouched. -/
theorem runLoop_spec (config : List ConfigEntry) (now : String) :
    ∀ (l : List (String × Snapshot)) (history : Ledger) (evs : List RunEvent),
    (∀ p ∈ l, (confFor config p.1).isSome) →
    (l.map (fun p => labelFor config p.1)).Nodup →
    ∃ evs2 final, runLoop config now l history evs = some (evs2, final) ∧
      evs2.countP isPersistEvent = evs.countP isPersistEvent ∧
      (∀ p ∈ l, ledgerGet final (labelFor config p.1) =
        some ((ledgerGet history (labelFor config p.1)).getD [] ++ [⟨now, p.2.coverage⟩])) ∧
      (∀ lab, lab ∉ l.map (fun p => labelFor config p.1) →
        ledgerGet final lab = ledgerGet history lab) := by
  intro l
  induction l with
  | nil =>
    intro history evs _ _
    exact ⟨evs, history, rfl, rfl, by simp, fun lab _ => rfl⟩
  | cons p rest ih =>
    intro history evs hconf hnodup
    obtain ⟨s, cov⟩ := p
    have hc : (confFor config s).isSome := hconf _ (List.mem_cons_self _ _)
    obtain ⟨conf, hcq⟩ := Option.isSome_iff_exists.mp hc
    have hlab : labelFor config s = conf.label := by rw [labelFor, hcq]; rfl
    have hnodup1 := List.nodup_cons.mp hnodup
    have hnd1 : conf.label ∉ rest.map (fun p => labelFor config p.1) := by
      have h1 := hnodup1.1
      simpa [hlab] using h1
    have hnd2 : (rest.map (fun p => labelFor config p.1)).Nodup := hnodup1.2
    obtain ⟨evs2, final, hrun, hcount, hmem, hout⟩ :=
      ih (appendEntry history conf.label ⟨now, cov.coverage⟩)
        (evs ++ .writeSummary s cov :: badgeEvents conf cov)
        (fun q hq => hconf q (List.mem_cons_of_mem _ hq)) hnd2
    refine ⟨evs2, final, ?_, ?_, ?_, ?_⟩
    · rw [runLoop, hcq]
      exact hrun
    · rw [hcount, List.countP_append]
      have hz : (RunEvent.writeSummary s cov :: badgeEvents conf cov).countP isPersistEvent = 0 := by
        cases hb : conf.badge <;> simp [badgeEvents, hb, isPersistEvent, List.countP_cons]
      rw [hz, Nat.add_zero]
    · intro q hq
      rcases List.mem_cons.mp hq with hq1 | hq2
      · subst hq1
        rw [hlab, hout conf.label hnd1, ledgerGet_append_self]
      · have hqmem := hmem q hq2
        have hne : labelFor config q.1 ≠ conf.label := by
          intro hEq
          exact hnd1 (hEq ▸ List.mem_map_of_mem _ hq2)
        rwa [ledgerGet_append_other _ _ _ _ hne] at hqmem
    · intro lab hlab2
      have h1 : lab ∉ rest.map (fun p => labelFor config p.1) := by
        intro hm
        exact hlab2 (List.mem_cons_of_mem _ hm)
      have hne2 : lab ≠ conf.label := by
        intro e
        apply hlab2
        rw [List.map_cons]
        exact e ▸ hlab ▸ List.mem_cons_self _ _
      rw [hout lab h1, ledgerGet_append_other _ _ _ _ hne2]

/-- C6: within one update run (distinct labels, all summaries configured),
each tracked label receives exactly one appended entry, placed last, its
previously existing entries kept unchanged as a prefix; untracked labels
are untouched; and the full final ledger is persisted exactly once, as the
last event, after all appends. -/
theorem update_ledger_append_once (config : List ConfigEntry)
    (coverages : List (String × Snapshot)) (now : String) (history : Ledger)
    (hconf : ∀ p ∈ coverages, (confFor config p.1).isSome)
    (hnodup : (coverages.map (fun p => labelFor config p.1)).Nodup)
    (r : List RunEvent × Ledger) (hr : updateRun config coverages now history = some r) :
    r.1.countP isPersistEvent = 1 ∧
    r.1.getLast? = some (.persistHistory r.2) ∧
    (∀ p ∈ coverages, ledgerGet r.2 (labelFor config p.1) =
      some ((ledgerGet history (labelFor config p.1)).getD [] ++ [⟨now, p.2.coverage⟩])) ∧
    (∀ lab, lab ∉ coverages.map (fun p => labelFor config p.1) →
      ledgerGet r.2 lab = ledgerGet history lab) := by
  obtain ⟨evs2, final, hrun, hcount, hmem, hout⟩ :=
    runLoop_spec config now coverages history [] hconf hnodup
  rw [updateRun, hrun] at hr
  simp only [Option.map_some'] at hr
  obtain rfl := (Option.some.injEq _ _).mp hr
  refine ⟨?_, ?_, hmem, hout⟩
  · simp only [List.countP_append, hcount]
    simp [isPersistEvent, List.countP_cons]
  · exact List.getLast?_concat _

/-- C6 witness: one configured report labelled `X`, an existing ledger with
one entry for `X`. -/
theorem update_ledger_append_once_witness :
    (∀ p ∈ ([("cov.json", ⟨100, 80, .finite 80⟩)] : List (String × Snapshot)),
      (confFor [⟨"clover.xml", "cov.json", "X", none⟩] p.1).isSome) ∧
    (([("cov.json", ⟨100, 80, .finite 80⟩)] : List (String × Snapshot)).map
      (fun p => labelFor [⟨"clover.xml", "cov.json", "X", none⟩] p.1)).Nodup ∧
    updateRun [⟨"clover.xml", "cov.json", "X", none⟩] [("cov.json", ⟨100, 80, .finite 80⟩)]
        "t1" [("X", [⟨"t0", .finite 79⟩])] =
      some ([.writeSummary "cov.json" ⟨100, 80, .finite 80⟩,
             .persistHistory [("X", [⟨"t0", .finite 79⟩, ⟨"t1", .finite 80⟩])]],
            [("X", [⟨"t0", .finite 79⟩, ⟨"t1", .finite 80⟩])]) ∧
    (([.writeSummary "cov.json" ⟨100, 80, .finite 80⟩,
        .persistHistory [("X", [⟨"t0", .finite 79⟩, ⟨"t1", .finite 80⟩])]] :
          List RunEvent).countP isPersistEvent = 1 ∧
      ([.writeSummary "cov.json" ⟨100, 80, .finite 80⟩,
        .persistHistory [("X", [⟨"t0", .finite 79⟩, ⟨"t1", .finite 80⟩])]] :
          List RunEvent).getLast? =
        some (.persistHistory [("X", [⟨"t0", .finite 79⟩, ⟨"t1", .finite 80⟩])]) ∧
      (∀ p ∈ ([("cov.json", ⟨100, 80, .finite 80⟩)] : List (String × Snapshot)),
        ledgerGet [("X", [⟨"t0", .finite 79⟩, ⟨"t1", .finite 80⟩])]
            (labelFor [⟨"clover.xml", "cov.json", "X", none⟩] p.1) =
          some ((ledgerGet [("X", [⟨"t0", .finite 79⟩])]
              (labelFor [⟨"clover.xml", "cov.json", "X", none⟩] p.1)).getD [] ++
            [⟨"t1", p.2.coverage⟩])) ∧
      (∀ lab, lab ∉ ([("cov.json", ⟨100, 80, .finite 80⟩)] : List (String × Snapshot)).map
          (fun p => labelFor [⟨"clover.xml", "cov.json", "X", none⟩] p.1) →
        ledgerGet [("X", [⟨"t0", .finite 79⟩, ⟨"t1", .finite 80⟩])] lab =
          ledgerGet [("X", [⟨"t0", .finite 79⟩])] lab)) :=
  ⟨by decide, by decide, rfl,
    update_ledger_append_once [⟨"clover.xml", "cov.json", "X", none⟩]
      [("cov.json", ⟨100, 80, .finite 80⟩)] "t1" [("X", [⟨"t0", .finite 79⟩])]
      (by decide) (by decide) _ rfl⟩

/-- Full characterisation of the check loop when no fetch has a fatal
status: 404 summaries are skipped, every 200 summary contributes one base
coverage and one message, in order. -/
theorem checkLoop_spec (ref : String) (config : List ConfigEntry) (base : String → BaseFetch) :
    ∀ (l bases : List (String × Snapshot)) (msgs : List String) (failed : Bool),
    (∀ p ∈ l, base p.1 ≠ .failed) →
    (∀ p ∈ l, (confFor config p.1).isSome) →
    ∃ f, checkLoop ref config base l bases msgs failed =
      some (bases ++ okBases base l,
        msgs ++ (l.filter (fun p => isOk (base p.1))).map (perMsg ref config base), f) := by
  intro l
  induction l with
  | nil =>
    intro bases msgs failed _ _
    exact ⟨failed, by simp [checkLoop, okBases]⟩
  | cons p rest ih =>
    intro bases msgs failed hb hc
    obtain ⟨s, cov⟩ := p
    cases hbs : base s with
    | failed => exact absurd hbs (hb (s, cov) (List.mem_cons_self _ _))
    | notFound =>
      obtain ⟨f, hf⟩ := ih bases msgs failed
        (fun q hq => hb q (List.mem_cons_of_mem _ hq))
        (fun q hq => hc q (List.mem_cons_of_mem _ hq))
      refine ⟨f, ?_⟩
      rw [checkLoop, hbs]
      exact hf.trans (by simp [okBases, List.filter_cons, hbs, isOk])
    | ok b =>
      have hc1 := hc (s, cov) (List.mem_cons_self _ _)
      obtain ⟨conf, hcq⟩ := Option.isSome_iff_exists.mp hc1
      have hlab : labelFor config s = conf.label := by rw [labelFor, hcq]; rfl
      obtain ⟨f, hf⟩ := ih (bases ++ [(s, b)])
        (msgs ++ ["*" ++ conf.label ++ "* \n\n" ++ (buildResultMessage ref b cov).1])
        (failed || (buildResultMessage ref b cov).2)
        (fun q hq => hb q (List.mem_cons_of_mem _ hq))
        (fun q hq => hc q (List.mem_cons_of_mem _ hq))
      refine ⟨f, ?_⟩
      rw [checkLoop, hbs, hcq]
      exact hf.trans (by simp [okBases, List.filter_cons, hbs, isOk, okSnap, perMsg, hlab])

/-- C7: when every baseline fetch succeeds and every summary is configured,
check compares each named report once (one message per report, in report
order), adds exactly one extra global comparison of the two summed
snapshots when more than one report is configured, and joins all messages —
per-report first, global last — with the `---` divider. -/
theorem check_per_report_then_global (ref : String) (config : List ConfigEntry)
    (coverages : List (String × Snapshot)) (base : String → BaseFetch)
    (hok : ∀ p ∈ coverages, isOk (base p.1) = true)
    (hc : ∀ p ∈ coverages, (confFor config p.1).isSome) :
    ∃ r, check ref config coverages base = some r ∧
      r.baseCoverages = coverages.map (fun p => (p.1, okSnap (base p.1))) ∧
      r.messages = coverages.map (perMsg ref config base) ++
        (if coverages.length > 1 then
          ["*Global* \n\n" ++ (buildResultMessage ref
            (sumCoverages (coverages.map (fun p => (p.1, okSnap (base p.1)))))
            (sumCoverages coverages)).1]
        else []) ∧
      postedMessage r = String.intercalate "\n---\n" r.messages := by
  have hb : ∀ p ∈ coverages, base p.1 ≠ .failed := by
    intro p hp e
    have h1 := hok p hp
    rw [e] at h1
    exact absurd h1 (by simp [isOk])
  obtain ⟨f, hf⟩ := checkLoop_spec ref config base coverages [] [] false hb hc
  have hfilter : coverages.filter (fun p => isOk (base p.1)) = coverages :=
    List.filter_eq_self.mpr (fun a ha => hok a ha)
  have hbases : okBases base coverages = coverages.map (fun p => (p.1, okSnap (base p.1))) := by
    rw [okBases, hfilter]
  rw [check, hf]
  simp only [Option.map_some']
  by_cases hlen : coverages.length > 1
  · rw [if_pos hlen]
    refine ⟨_, rfl, by simp [hbases], ?_, rfl⟩
    simp [hbases, hfilter, if_pos hlen]
  · rw [if_neg hlen]
    refine ⟨_, rfl, by simp [hbases], ?_, rfl⟩
    simp [hbases, hfilter, if_neg hlen]

/-- C7 witness: two configured reports, both baselines present
(90 and 80), new coverages 92 and 78. -/
theorem check_per_report_then_global_witness :
    (∀ p ∈ ([("s1", ⟨100, 92, .finite 92⟩), ("s2", ⟨100, 78, .finite 78⟩)] :
        List (String × Snapshot)),
      isOk ((fun s => if s = "s1" then BaseFetch.ok ⟨100, 90, .finite 90⟩
        else BaseFetch.ok ⟨100, 80, .finite 80⟩) p.1) = true) ∧
    (∀ p ∈ ([("s1", ⟨100, 92, .finite 92⟩), ("s2", ⟨100, 78, .finite 78⟩)] :
        List (String × Snapshot)),
      (confFor [⟨"c1.xml", "s1", "unit", none⟩, ⟨"c2.xml", "s2", "integration", none⟩]
        p.1).isSome) ∧
    (∃ r, check "main" [⟨"c1.xml", "s1", "unit", none⟩, ⟨"c2.xml", "s2", "integration", none⟩]
        [("s1", ⟨100, 92, .finite 92⟩), ("s2", ⟨100, 78, .finite 78⟩)]
        (fun s => if s = "s1" then BaseFetch.ok ⟨100, 90, .finite 90⟩
          else BaseFetch.ok ⟨100, 80, .finite 80⟩) = some r ∧
      r.baseCoverages = ([("s1", ⟨100, 92, .finite 92⟩), ("s2", ⟨100, 78, .finite 78⟩)] :
        List (String × Snapshot)).map (fun p => (p.1,
          okSnap ((fun s => if s = "s1" then BaseFetch.ok ⟨100, 90, .finite 90⟩
            else BaseFetch.ok ⟨100, 80, .finite 80⟩) p.1))) ∧
      r.messages = ([("s1", ⟨100, 92, .finite 92⟩), ("s2", ⟨100, 78, .finite 78⟩)] :
          List (String × Snapshot)).map
          (perMsg "main" [⟨"c1.xml", "s1", "unit", none⟩, ⟨"c2.xml", "s2", "integration", none⟩]
            (fun s => if s = "s1" then BaseFetch.ok ⟨100, 90, .finite 90⟩
              else BaseFetch.ok ⟨100, 80, .finite 80⟩)) ++
        (if ([("s1", ⟨100, 92, .finite 92⟩), ("s2", ⟨100, 78, .finite 78⟩)] :
            List (String × Snapshot)).length > 1 then
          ["*Global* \n\n" ++ (buildResultMessage "main"
            (sumCoverages (([("s1", ⟨100, 92, .finite 92⟩), ("s2", ⟨100, 78, .finite 78⟩)] :
              List (String × Snapshot)).map (fun p => (p.1,
                okSnap ((fun s => if s = "s1" then BaseFetch.ok ⟨100, 90, .finite 90⟩
                  else BaseFetch.ok ⟨100, 80, .finite 80⟩) p.1)))))
            (sumCoverages [("s1", ⟨100, 92, .finite 92⟩), ("s2", ⟨100, 78, .finite 78⟩)])).1]
        else []) ∧
      postedMessage r = String.intercalate "\n---\n" r.messages) :=
  ⟨by decide, by decide,
    check_per_report_then_global "main"
      [⟨"c1.xml", "s1", "unit", none⟩, ⟨"c2.xml", "s2", "integration", none⟩]
      [("s1", ⟨100, 92, .finite 92⟩), ("s2", ⟨100, 78, .finite 78⟩)]
      (fun s => if s = "s1" then BaseFetch.ok ⟨100, 90, .finite 90⟩
        else BaseFetch.ok ⟨100, 80, .finite 80⟩) (by decide) (by decide)⟩

/-- C10: a 404 baseline is skipped without failing the run: the loop
completes, only labels whose baseline existed contribute to the collected
base coverages and to the per-report messages, and the global comparison
(when more than one report is configured) sums the baselines over that
subset while summing the new snapshots over all configured reports; when no
baseline exists at all the base side is the empty map. -/
theorem check_missing_baseline_skipped (ref : String) (config : List ConfigEntry)
    (coverages : List (String × Snapshot)) (base : String → BaseFetch)
    (hnf : ∀ p ∈ coverages, base p.1 ≠ .failed)
    (hc : ∀ p ∈ coverages, (confFor config p.1).isSome) :
    ∃ r, check ref config coverages base = some r ∧
      r.baseCoverages = okBases base coverages ∧
      r.messages = (coverages.filter (fun p => isOk (base p.1))).map (perMsg ref config base) ++
        (if coverages.length > 1 then
          ["*Global* \n\n" ++ (buildResultMessage ref (sumCoverages (okBases base coverages))
            (sumCoverages coverages)).1]
        else []) ∧
      ((∀ p ∈ coverages, base p.1 = .notFound) → okBases base coverages = []) := by
  obtain ⟨f, hf⟩ := checkLoop_spec ref config base coverages [] [] false hnf hc
  have hempty : (∀ p ∈ coverages, base p.1 = .notFound) → okBases base coverages = [] := by
    intro hall
    rw [okBases, List.filter_eq_nil.mpr]
    · rfl
    · intro a ha
      rw [hall a ha]
      simp [isOk]
  rw [check, hf]
  simp only [Option.map_some']
  by_cases hlen : coverages.length > 1
  · rw [if_pos hlen]
    exact ⟨_, rfl, rfl, by simp [if_pos hlen], hempty⟩
  · rw [if_neg hlen]
    exact ⟨_, rfl, rfl, by simp [if_neg hlen], hempty⟩

/-- C10 witness: two configured reports; the first baseline exists, the
second returns 404. -/
theorem check_missing_baseline_skipped_witness :
    (∀ p ∈ ([("s1", ⟨100, 92, .finite 92⟩), ("s2", ⟨100, 78, .finite 78⟩)] :
        List (String × Snapshot)),
      (fun s => if s = "s1" then BaseFetch.ok ⟨100, 90, .finite 90⟩
        else BaseFetch.notFound) p.1 ≠ .failed) ∧
    (∀ p ∈ ([("s1", ⟨100, 92, .finite 92⟩), ("s2", ⟨100, 78, .finite 78⟩)] :
        List (String × Snapshot)),
      (confFor [⟨"c1.xml", "s1", "unit", none⟩, ⟨"c2.xml", "s2", "integration", none⟩]
        p.1).isSome) ∧
    (∃ r, check "main" [⟨"c1.xml", "s1", "unit", none⟩, ⟨"c2.xml", "s2", "integration", none⟩]
        [("s1", ⟨100, 92, .finite 92⟩), ("s2", ⟨100, 78, .finite 78⟩)]
        (fun s => if s = "s1" then BaseFetch.ok ⟨100, 90, .finite 90⟩
          else BaseFetch.notFound) = some r ∧
      r.baseCoverages = okBases (fun s => if s = "s1" then BaseFetch.ok ⟨100, 90, .finite 90⟩
        else BaseFetch.notFound) [("s1", ⟨100, 92, .finite 92⟩), ("s2", ⟨100, 78, .finite 78⟩)] ∧
      r.messages = (([("s1", ⟨100, 92, .finite 92⟩), ("s2", ⟨100, 78, .finite 78⟩)] :
          List (String × Snapshot)).filter
          (fun p => isOk ((fun s => if s = "s1" then BaseFetch.ok ⟨100, 90, .finite 90⟩
            else BaseFetch.notFound) p.1))).map
          (perMsg "main" [⟨"c1.xml", "s1", "unit", none⟩, ⟨"c2.xml", "s2", "integration", none⟩]
            (fun s => if s = "s1" then BaseFetch.ok ⟨100, 90, .finite 90⟩
              else BaseFetch.notFound)) ++
        (if ([("s1", ⟨100, 92, .finite 92⟩), ("s2", ⟨100, 78, .finite 78⟩)] :
            List (String × Snapshot)).length > 1 then
          ["*Global* \n\n" ++ (buildResultMessage "main"
            (sumCoverages (okBases (fun s => if s = "s1" then BaseFetch.ok ⟨100, 90, .finite 90⟩
              else BaseFetch.notFound)
              [("s1", ⟨100, 92, .finite 92⟩), ("s2", ⟨100, 78, .finite 78⟩)]))
            (sumCoverages [("s1", ⟨100, 92, .finite 92⟩), ("s2", ⟨100, 78, .finite 78⟩)])).1]
        else []) ∧
      ((∀ p ∈ ([("s1", ⟨100, 92, .finite 92⟩), ("s2", ⟨100, 78, .finite 78⟩)] :
          List (String × Snapshot)),
        (fun s => if s = "s1" then BaseFetch.ok ⟨100, 90, .finite 90⟩
          else BaseFetch.notFound) p.1 = .notFound) →
        okBases (fun s => if s = "s1" then BaseFetch.ok ⟨100, 90, .finite 90⟩
          else BaseFetch.notFound)
          [("s1", ⟨100, 92, .finite 92⟩), ("s2", ⟨100, 78, .finite 78⟩)] = [])) :=
  ⟨by decide, by decide,
    check_missing_baseline_skipped "main"
      [⟨"c1.xml", "s1", "unit", none⟩, ⟨"c2.xml", "s2", "integration", none⟩]
      [("s1", ⟨100, 92, .finite 92⟩), ("s2", ⟨100, 78, .finite 78⟩)]
      (fun s => if s = "s1" then BaseFetch.ok ⟨100, 90, .finite 90⟩
        else BaseFetch.notFound) (by decide) (by decide)⟩

end CoverageChecker
